import Mathlib

/-!
Verification development for the Password-Manager repository.

Part A models the client vault-encryption module
(src/web/src/crypto: `toBase64`, `fromBase64`, `isValidBase64`,
`encryptVaultItem`, `decryptVaultItem`) over byte lists (`List Nat`,
entries < 256).  JS strings carrying binary data are modeled as their
UTF-8 byte lists; base64 text is modeled as `List Char`.
The XChaCha20-Poly1305 AEAD adapter is modeled as an abstract
seal/unseal pair; its cryptographic properties appear as explicit
hypotheses of the theorems that need them.
-/

namespace PM

/-- Errors thrown by the vault crypto module; one constructor per distinct
`throw new Error(...)` site in `adapters.ts`. -/
inductive VaultError where
  | unsupportedVersion
  | kekLengthMismatch
  | missingField
  | invalidEncoding
  | fieldLength
  | aeadKeyLength
  | aeadNonceLength
  | authenticationFailed
  | dekLength
  deriving DecidableEq, Repr

/-- Character of a 6-bit base64 index, standard alphabet (source: `toBase64`). -/
def b64CharOfIndex (i : Nat) : Char :=
  if i < 26 then Char.ofNat (65 + i)
  else if i < 52 then Char.ofNat (97 + (i - 26))
  else if i < 62 then Char.ofNat (48 + (i - 52))
  else if i = 62 then '+' else '/'

/-- Base64 index of a character, `none` when outside the standard alphabet. -/
def b64IndexOfChar (c : Char) : Option Nat :=
  let n := c.toNat
  if 65 ≤ n ∧ n ≤ 90 then some (n - 65)
  else if 97 ≤ n ∧ n ≤ 122 then some (n - 97 + 26)
  else if 48 ≤ n ∧ n ≤ 57 then some (n - 48 + 52)
  else if n = 43 then some 62
  else if n = 47 then some 63
  else none

/-- Whether a character belongs to the base64 alphabet (the `[A-Za-z0-9+/]`
class of `isValidBase64`'s regular expression). -/
def isB64Char (c : Char) : Bool := (b64IndexOfChar c).isSome

/-- Base64 index with default 0 (used only on alphabet characters). -/
def b64Val (c : Char) : Nat := (b64IndexOfChar c).getD 0

/-- Standard base64 encoding of a byte list, with `=` padding; models
`toBase64` from `adapters.ts` (`Buffer.from(..).toString("base64")` / `btoa`). -/
def toBase64 : List Nat → List Char
  | [] => []
  | [b0] =>
      [b64CharOfIndex (b0 / 4), b64CharOfIndex (b0 % 4 * 16), '=', '=']
  | [b0, b1] =>
      [b64CharOfIndex (b0 / 4), b64CharOfIndex (b0 % 4 * 16 + b1 / 16),
       b64CharOfIndex (b1 % 16 * 4), '=']
  | b0 :: b1 :: b2 :: rest =>
      b64CharOfIndex (b0 / 4) :: b64CharOfIndex (b0 % 4 * 16 + b1 / 16) ::
      b64CharOfIndex (b1 % 16 * 4 + b2 / 64) :: b64CharOfIndex (b2 % 64) ::
      toBase64 rest

/-- Group structure of `isValidBase64`'s regular expression
`^(?:[A-Za-z0-9+/]{4})*(?:[A-Za-z0-9+/]{2}==|[A-Za-z0-9+/]{3}=)?$`:
any number of full alphabet quadruples, then an optional final padded group. -/
def validB64Groups : List Char → Bool
  | [] => true
  | c0 :: c1 :: c2 :: c3 :: rest =>
      if isB64Char c0 && isB64Char c1 && isB64Char c2 && isB64Char c3 then
        validB64Groups rest
      else
        rest.isEmpty && isB64Char c0 && isB64Char c1 &&
          ((c2 == '=' && c3 == '=') || (isB64Char c2 && c3 == '='))
  | _ => false

/-- Model of `isValidBase64`: rejects the empty string and lengths not a
multiple of 4, then checks the alphabet/padding regular expression. -/
def isValidBase64 (s : List Char) : Bool :=
  !(s.length == 0) && s.length % 4 == 0 && validB64Groups s

/-- Decoding of the quadruple groups (shape guaranteed by `isValidBase64`);
models what `Buffer.from(s, "base64")` / `atob` compute on valid input. -/
def decodeB64Groups : List Char → List Nat
  | c0 :: c1 :: c2 :: c3 :: rest =>
      let i0 := b64Val c0
      let i1 := b64Val c1
      if c3 == '=' then
        if c2 == '=' then [i0 * 4 + i1 / 16]
        else [i0 * 4 + i1 / 16, i1 % 16 * 16 + b64Val c2 / 4]
      else
        (i0 * 4 + i1 / 16) :: (i1 % 16 * 16 + b64Val c2 / 4) ::
          (b64Val c2 % 4 * 64 + b64Val c3) :: decodeB64Groups rest
  | _ => []

/-- Model of `fromBase64` (validated version): validate, then decode;
malformed input is the `invalidEncoding` error ("invalid base64 input"). -/
def fromBase64 (s : List Char) : Except VaultError (List Nat) :=
  if isValidBase64 s then .ok (decodeB64Groups s) else .error .invalidEncoding

/-- Model of `decodeBase64Field`: decode, then optionally check the decoded
byte length ("`field` must decode to N bytes"). -/
def decodeBase64Field (s : List Char) (expected : Option Nat) :
    Except VaultError (List Nat) :=
  match fromBase64 s with
  | .error e => .error e
  | .ok bs =>
      match expected with
      | some n => if bs.length = n then .ok bs else .error .fieldLength
      | none => .ok bs

/-- All entries of a byte list are genuine bytes. -/
def allBytes (bs : List Nat) : Prop := ∀ b ∈ bs, b < 256

/-- Abstract AEAD cipher backing the `XChaCha20Poly1305Aead` adapter:
deterministic seal and partial unseal over (key, nonce, data, aad).
The concrete instance is `@stablelib/xchacha20poly1305`; its properties
(unseal inverting seal, byte-valued outputs, authenticity) enter the
theorems below as explicit hypotheses. -/
structure Aead where
  keyLength : Nat
  nonceLength : Nat
  sealFn : List Nat → List Nat → List Nat → List Nat → List Nat
  openFn : List Nat → List Nat → List Nat → List Nat → Option (List Nat)

/-- Model of `createDefaultXChaCha20Poly1305(...).encrypt`: length-check the
key and nonce, then seal; a missing associated-data argument becomes the
empty byte string (`input.associatedData ?? emptyAad`). -/
def aeadEncrypt (A : Aead) (key nonce pt : List Nat) (aad : Option (List Nat)) :
    Except VaultError (List Nat) :=
  if key.length ≠ A.keyLength then .error .aeadKeyLength
  else if nonce.length ≠ A.nonceLength then .error .aeadNonceLength
  else .ok (A.sealFn key nonce pt (aad.getD []))

/-- Model of `createDefaultXChaCha20Poly1305(...).decrypt`: length-check the
key and nonce, unseal, and turn a rejected ciphertext into the single
"ciphertext authentication failed" error. -/
def aeadDecrypt (A : Aead) (key nonce ct : List Nat) (aad : Option (List Nat)) :
    Except VaultError (List Nat) :=
  if key.length ≠ A.keyLength then .error .aeadKeyLength
  else if nonce.length ≠ A.nonceLength then .error .aeadNonceLength
  else
    match A.openFn key nonce ct (aad.getD []) with
    | some pt => .ok pt
    | none => .error .authenticationFailed

/-- UTF-8 bytes of the fixed DEK-wrap associated-data label
`"pmv2:dek-wrap:v1"` (ASCII, so code points are the bytes). -/
def dekWrapAad : List Nat := "pmv2:dek-wrap:v1".data.map Char.toNat

/-- Version tag of the vault item wire shape. -/
def vaultVersion : String := "xchacha20poly1305-v1"

/-- Transport shape of an encrypted vault item: version tag plus four
base64 fields (modeled as character lists). -/
structure EncryptedVaultItem where
  version : String
  nonce : List Char
  ciphertext : List Char
  wrappedDek : List Char
  wrapNonce : List Char
  deriving DecidableEq, Repr

/-- Model of `encryptVaultItem`.  The randomness the source draws with
`randomBytes` (fresh DEK and the two nonces) is passed in as the `dek`,
`nonce` and `wrapNonce` arguments; the plaintext string is passed as its
UTF-8 bytes.  Seals the content under the DEK, wraps the DEK under the
KEK with the fixed label, and base64-encodes the four binary outputs. -/
def encryptVaultItem (A : Aead) (kek dek nonce wrapNonce pt : List Nat)
    (aad : Option (List Nat)) : Except VaultError EncryptedVaultItem :=
  if kek.length ≠ A.keyLength then .error .kekLengthMismatch
  else do
    let ct ← aeadEncrypt A dek nonce pt aad
    let wd ← aeadEncrypt A kek wrapNonce dek (some dekWrapAad)
    pure { version := vaultVersion, nonce := toBase64 nonce,
           ciphertext := toBase64 ct, wrappedDek := toBase64 wd,
           wrapNonce := toBase64 wrapNonce }

/-- Model of `decryptVaultItem` (validated version): check version, KEK
length and field presence, decode the four base64 fields (nonces with an
exact expected length), unwrap the DEK under the fixed label, check the
DEK length, then open the content; the decoded plaintext bytes are
returned (the source finally re-reads them as a UTF-8 string). -/
def decryptVaultItem (A : Aead) (p : EncryptedVaultItem) (kek : List Nat)
    (aad : Option (List Nat)) : Except VaultError (List Nat) :=
  if p.version ≠ vaultVersion then .error .unsupportedVersion
  else if kek.length ≠ A.keyLength then .error .kekLengthMismatch
  else if p.nonce.isEmpty || p.wrapNonce.isEmpty || p.ciphertext.isEmpty
      || p.wrappedDek.isEmpty then .error .missingField
  else do
    let wn ← decodeBase64Field p.wrapNonce (some A.nonceLength)
    let wd ← decodeBase64Field p.wrappedDek none
    let n ← decodeBase64Field p.nonce (some A.nonceLength)
    let ct ← decodeBase64Field p.ciphertext none
    let dek ← aeadDecrypt A kek wn wd (some dekWrapAad)
    if dek.length ≠ A.keyLength then .error .dekLength
    else aeadDecrypt A dek n ct aad
/-- Toy AEAD instance used to instantiate the abstract adapter in concrete
witnesses: sealing prepends a zero byte, opening strips it. -/
def toyAead : Aead where
  keyLength := 32
  nonceLength := 24
  sealFn := fun _ _ p _ => 0 :: p
  openFn := fun _ _ c _ =>
    match c with
    | 0 :: p => some p
    | _ => none

/-- Concrete 32-byte KEK for witnesses. -/
def toyKek : List Nat := List.replicate 32 7

/-- Concrete 32-byte DEK for witnesses. -/
def toyDek : List Nat := List.replicate 32 9

/-- Concrete 24-byte content nonce for witnesses. -/
def toyNonce : List Nat := List.replicate 24 1

/-- Concrete 24-byte wrap nonce for witnesses. -/
def toyWrapNonce : List Nat := List.replicate 24 2

/-- Concrete plaintext bytes ("hi") for witnesses. -/
def toyPt : List Nat := [104, 105]

/-- The payload `encryptVaultItem` produces from the toy inputs. -/
def toyPayload : EncryptedVaultItem :=
  { version := vaultVersion, nonce := toBase64 toyNonce,
    ciphertext := toBase64 (0 :: toyPt), wrappedDek := toBase64 (0 :: toyDek),
    wrapNonce := toBase64 toyWrapNonce }

instance (bs : List Nat) : Decidable (allBytes bs) := by
  unfold allBytes; infer_instance

/-!
Part B models the server TOTP engine
(src/backend/internal/util/auth_crypto.go: `VerifyTOTP`,
`counterFromTime`, `totpCodeForCounter`) including concrete SHA-1 and
HMAC-SHA1 over byte lists; 32-bit machine words are `Nat` reduced
modulo 2^32.
-/

/-- Truncation to a 32-bit word. -/
def w32 (x : Nat) : Nat := x % 4294967296

/-- Left rotation of a 32-bit word by `n` bits (input below 2^32). -/
def rotl32 (n x : Nat) : Nat := ((x <<< n) ||| (x >>> (32 - n))) % 4294967296

/-- SHA-1 round constants. -/
def sha1K (i : Nat) : Nat :=
  if i < 20 then 0x5A827999
  else if i < 40 then 0x6ED9EBA1
  else if i < 60 then 0x8F1BBCDC
  else 0xCA62C1D6

/-- SHA-1 round functions (bitwise choice, parity, majority). -/
def sha1F (i b c d : Nat) : Nat :=
  if i < 20 then (b &&& c) ||| ((b ^^^ 4294967295) &&& d)
  else if i < 40 then b ^^^ c ^^^ d
  else if i < 60 then (b &&& c) ||| (b &&& d) ||| (c &&& d)
  else b ^^^ c ^^^ d

/-- Big-endian byte expansion of a number into `k` bytes. -/
def beBytes (k : Nat) (v : Nat) : List Nat :=
  match k with
  | 0 => []
  | k + 1 => beBytes k (v / 256) ++ [v % 256]

/-- Number of zero pad bytes of SHA-1 for a message of the given length. -/
def sha1PadLen (len : Nat) : Nat := (119 - len % 64) % 64

/-- SHA-1 message padding: 0x80, zeros, 64-bit big-endian bit length. -/
def sha1Pad (msg : List Nat) : List Nat :=
  msg ++ 128 :: (List.replicate (sha1PadLen msg.length) 0 ++ beBytes 8 (msg.length * 8))

/-- Big-endian packing of bytes into 32-bit words. -/
def wordsOfBytes : List Nat → List Nat
  | b0 :: b1 :: b2 :: b3 :: rest =>
      (b0 * 16777216 + b1 * 65536 + b2 * 256 + b3) :: wordsOfBytes rest
  | _ => []

/-- Big-endian unpacking of 32-bit words into bytes. -/
def bytesOfWords (ws : List Nat) : List Nat :=
  ws.foldr (fun w acc => beBytes 4 w ++ acc) []

/-- Accumulator pass splitting a word list into 16-word blocks
(`acc` holds the current partial block in reverse). -/
def chunk16Go : List Nat → List Nat → List (List Nat)
  | [], acc => if acc.isEmpty then [] else [acc.reverse]
  | x :: rest, acc =>
      if acc.length = 15 then (x :: acc).reverse :: chunk16Go rest []
      else chunk16Go rest (x :: acc)

/-- Splitting a word list into 16-word blocks. -/
def chunk16 (l : List Nat) : List (List Nat) := chunk16Go l []

/-- One step of the SHA-1 message-schedule extension. -/
def sha1ExtStep (ws : List Nat) : List Nat :=
  ws ++ [rotl32 1 (ws.getD (ws.length - 3) 0 ^^^ ws.getD (ws.length - 8) 0 ^^^
    ws.getD (ws.length - 14) 0 ^^^ ws.getD (ws.length - 16) 0)]

/-- SHA-1 message schedule: a 16-word block extended to 80 words. -/
def sha1Extend (block : List Nat) : List Nat :=
  (List.range 64).foldl (fun ws _ => sha1ExtStep ws) block

/-- One SHA-1 round on the five-register state. -/
def sha1Round (st : Nat × Nat × Nat × Nat × Nat) (i w : Nat) :
    Nat × Nat × Nat × Nat × Nat :=
  let (a, b, c, d, e) := st
  (w32 (rotl32 5 a + sha1F i b c d + e + sha1K i + w), a, rotl32 30 b, c, d)

/-- SHA-1 block compression. -/
def sha1Compress (h : Nat × Nat × Nat × Nat × Nat) (block : List Nat) :
    Nat × Nat × Nat × Nat × Nat :=
  let ws := sha1Extend block
  let (a, b, c, d, e) :=
    (List.range 80).foldl (fun st i => sha1Round st i (ws.getD i 0)) h
  (w32 (h.1 + a), w32 (h.2.1 + b), w32 (h.2.2.1 + c), w32 (h.2.2.2.1 + d),
    w32 (h.2.2.2.2 + e))

/-- SHA-1 initial state. -/
def sha1Init : Nat × Nat × Nat × Nat × Nat :=
  (0x67452301, 0xEFCDAB89, 0x98BADCFE, 0x10325476, 0xC3D2E1F0)

/-- SHA-1 of a byte list (20-byte digest). -/
def sha1 (msg : List Nat) : List Nat :=
  let fin := (chunk16 (wordsOfBytes (sha1Pad msg))).foldl sha1Compress sha1Init
  bytesOfWords [fin.1, fin.2.1, fin.2.2.1, fin.2.2.2.1, fin.2.2.2.2]

/-- HMAC-SHA1 with 64-byte block size (`crypto/hmac` over `crypto/sha1`). -/
def hmacSha1 (key msg : List Nat) : List Nat :=
  let key1 := if 64 < key.length then sha1 key else key
  let key2 := key1 ++ List.replicate (64 - key1.length) 0
  sha1 ((key2.map (fun b => b ^^^ 92)) ++ sha1 ((key2.map (fun b => b ^^^ 54)) ++ msg))

/-- Decimal formatting of a code below 1000000 with leading zeros
(`fmt.Sprintf` with the 06d verb). -/
def format6 (n : Nat) : List Char :=
  [Char.ofNat (48 + n / 100000 % 10), Char.ofNat (48 + n / 10000 % 10),
   Char.ofNat (48 + n / 1000 % 10), Char.ofNat (48 + n / 100 % 10),
   Char.ofNat (48 + n / 10 % 10), Char.ofNat (48 + n % 10)]

/-- Model of `totpCodeForCounter`: HMAC-SHA1 of the big-endian counter,
dynamic truncation, six decimal digits. -/
def totpCodeForCounter (secret : List Nat) (counter : Nat) : List Char :=
  let mac := hmacSha1 secret (beBytes 8 counter)
  let offset := mac.getD (mac.length - 1) 0 &&& 15
  let truncated := ((mac.getD offset 0 &&& 127) <<< 24) |||
    ((mac.getD (offset + 1) 0) <<< 16) ||| ((mac.getD (offset + 2) 0) <<< 8) |||
    (mac.getD (offset + 3) 0)
  format6 (truncated % 1000000)

/-- Model of `counterFromTime`: unix seconds plus 30-second offsets,
clamped at zero, divided by the 30-second step. -/
def counterFromTime (unix : Int) (offset : Int) : Nat :=
  let seconds := unix + offset * 30
  if seconds < 0 then 0 else (seconds / 30).toNat

/-- Unicode white-space test backing `strings.TrimSpace`. -/
def isSpaceChar (c : Char) : Bool :=
  let n := c.toNat
  (9 ≤ n && n ≤ 13) || n == 32 || n == 133 || n == 160 || n == 5760 ||
  (8192 ≤ n && n ≤ 8202) || n == 8232 || n == 8233 || n == 8239 ||
  n == 8287 || n == 12288

/-- Model of `strings.TrimSpace`: strip leading and trailing white space. -/
def trimSpace (s : List Char) : List Char :=
  ((s.dropWhile isSpaceChar).reverse.dropWhile isSpaceChar).reverse

/-- Base32 index of a character under the standard alphabet A-Z, 2-7. -/
def b32IndexOfChar (c : Char) : Option Nat :=
  let n := c.toNat
  if 65 ≤ n ∧ n ≤ 90 then some (n - 65)
  else if 50 ≤ n ∧ n ≤ 55 then some (n - 50 + 26)
  else none

/-- Bytes of one base32 group given its 5-bit values (top bits first). -/
def b32Bytes (vs : List Nat) : List Nat :=
  let L := vs.length
  let n := 5 * L / 8
  beBytes n ((vs.foldl (fun acc v => acc * 32 + v) 0) >>> (5 * L - 8 * n))

/-- Accumulator pass of base32 decoding (`acc` holds the 5-bit values of
the current group in reverse): full eight-character groups emit five
bytes; a final partial group of 2, 4, 5 or 7 characters emits 1 to 4
bytes; other lengths and non-alphabet characters are rejected. -/
def b32Go : List Char → List Nat → Option (List Nat)
  | [], acc =>
      let vs := acc.reverse
      if vs.length = 0 then some []
      else if vs.length = 2 ∨ vs.length = 4 ∨ vs.length = 5 ∨ vs.length = 7 then
        some (b32Bytes vs)
      else none
  | c :: rest, acc =>
      match b32IndexOfChar c with
      | none => none
      | some v =>
          if acc.length = 7 then
            match b32Go rest [] with
            | none => none
            | some bs => some (b32Bytes ((v :: acc).reverse) ++ bs)
          else b32Go rest (v :: acc)

/-- Model of Go base32 decoding without padding. -/
def base32Decode (cs : List Char) : Option (List Nat) := b32Go cs []

/-- ASCII uppercasing (`strings.ToUpper` restricted to the characters a
base32 secret can contain). -/
def toUpperChar (c : Char) : Char :=
  if 97 ≤ c.toNat ∧ c.toNat ≤ 122 then Char.ofNat (c.toNat - 32) else c

/-- Model of `VerifyTOTP` parameterized by the per-counter code function:
trim the supplied code, reject unless its length is exactly 6, decode the
upper-cased base32 secret, and accept when the code matches the candidate
of one of the time steps now-1, now, now+1. -/
def verifyTOTPWith (hotp : List Nat → Nat → List Char) (secret code : List Char)
    (now : Int) : Bool :=
  let trimmed := trimSpace code
  if trimmed.length ≠ 6 then false
  else
    match base32Decode (secret.map toUpperChar) with
    | none => false
    | some key =>
        decide (trimmed = hotp key (counterFromTime now (-1))) ||
        decide (trimmed = hotp key (counterFromTime now 0)) ||
        decide (trimmed = hotp key (counterFromTime now 1))

/-- Model of `VerifyTOTP` with the concrete HOTP code function. -/
def VerifyTOTP (secret code : List Char) (now : Int) : Bool :=
  verifyTOTPWith totpCodeForCounter secret code now

/-- RFC 6238 test secret, base32-encoded form (used in concrete TOTP
instances). -/
def rfcSecret : List Char := "GEZDGNBVGY3TQOJQGEZDGNBVGY3TQOJQ".data

/-- RFC 6238 test secret as raw key bytes (ASCII "12345678901234567890"). -/
def rfcKey : List Nat := "12345678901234567890".data.map Char.toNat

/-!
Part C models the backend auth repository and service
(src/backend/internal/repository auth repository, service/auth_service.go,
util/validators.go).  Go strings are `List Char`, byte slices `List Nat`,
timestamps unix seconds as `Int` (windows and lock durations in seconds:
30 and 300).  The SQL tables become lists of rows; SQL `NOW()` is the
`now` argument.  Cryptographic primitives not under src (argon2, sha256
hashing of tokens and recovery codes, the TOTP secret codec) are abstract
functions in an `Env` record.
-/

/-- ASCII lowercasing (`strings.ToLower` restricted to ASCII letters). -/
def toLowerChar (c : Char) : Char :=
  if 65 ≤ c.toNat ∧ c.toNat ≤ 90 then Char.ofNat (c.toNat + 32) else c

/-- Model of `NormalizeEmail`: trim white space, lowercase. -/
def normalizeEmail (e : List Char) : List Char := (trimSpace e).map toLowerChar

/-- Argon2id parameters as stored next to a password hash. -/
structure Argon2Params where
  memory : Nat
  iterations : Nat
  parallelism : Nat
  keyLength : Nat
  deriving DecidableEq, Repr

/-- Model of `ParseArgon2Params`: reject a missing/unparseable blob
(`none`) and zero fields, otherwise return the parameters. -/
def parseArgon2Params (raw : Option Argon2Params) : Except Unit Argon2Params :=
  match raw with
  | none => .error ()
  | some p =>
      if p.keyLength = 0 ∨ p.iterations = 0 ∨ p.memory = 0 ∨ p.parallelism = 0 then
        .error ()
      else .ok p

/-- Row of `auth_credentials` joined with `users` (the fields the auth
service reads). -/
structure UserRec where
  userID : List Char
  email : List Char
  name : List Char
  salt : List Nat
  passwordHash : List Nat
  rawParams : Option Argon2Params
  totpEnabled : Bool
  totpSecretEnc : List Nat
  failedAttempts : Int
  windowStart : Option Int
  lockedUntil : Option Int
  deriving DecidableEq, Repr

/-- Row of the `sessions` table. -/
structure SessionRow where
  sessionID : List Char
  userID : List Char
  tokenHash : List Nat
  deviceName : List Char
  ipAddr : List Char
  userAgent : List Char
  expiresAt : Int
  revokedAt : Option Int
  deriving DecidableEq, Repr

/-- Row of the `totp_recovery_codes` table. -/
structure RecRow where
  userID : List Char
  codeHash : List Nat
  usedAt : Option Int
  deriving DecidableEq, Repr

/-- The mutable storage the auth repository operates on. -/
structure RepoState where
  users : List UserRec
  sessions : List SessionRow
  recoveryCodes : List RecRow
  deriving DecidableEq, Repr

/-- Model of `GetUserAuthByEmail` (first row matching the email). -/
def getUserAuthByEmail (st : RepoState) (email : List Char) : Option UserRec :=
  st.users.find? (fun u => u.email == email)

/-- Model of `CreateSession` (plain insert). -/
def createSession (st : RepoState) (row : SessionRow) : RepoState :=
  { st with sessions := st.sessions ++ [row] }

/-- Model of `GetActiveSessionByTokenHash`: first session row whose token
hash matches and which is unrevoked and unexpired (`expires_at > NOW()`). -/
def getActiveSessionByTokenHash (st : RepoState) (h : List Nat) (now : Int) :
    Option SessionRow :=
  st.sessions.find? (fun s =>
    s.tokenHash == h && s.revokedAt.isNone && decide (now < s.expiresAt))

/-- Model of `RevokeSessionByTokenHash`: conditionally stamp
`revoked_at` on unrevoked matching rows; report whether any row was hit. -/
def revokeSessionByTokenHash (st : RepoState) (h : List Nat) (now : Int) :
    RepoState × Bool :=
  let hit := fun (s : SessionRow) => s.tokenHash == h && s.revokedAt.isNone
  ({ st with sessions := st.sessions.map (fun s =>
      if hit s then { s with revokedAt := some now } else s) },
    decide (0 < st.sessions.countP hit))

/-- Model of `DeleteExpiredSessions`: purge expired or revoked rows. -/
def deleteExpiredSessions (st : RepoState) (now : Int) : RepoState × Nat :=
  let doomed := fun (s : SessionRow) =>
    decide (s.expiresAt < now) || !s.revokedAt.isNone
  ({ st with sessions := st.sessions.filter (fun s => !doomed s) },
    st.sessions.countP doomed)

/-- Model of `SetTOTPSecret`: store the encrypted secret, force
`enabled = false`, and zero the lockout fields. -/
def setTOTPSecret (st : RepoState) (uid : List Char) (enc : List Nat) :
    RepoState × Bool :=
  ({ st with users := st.users.map (fun u =>
      if u.userID == uid then
        { u with
          totpSecretEnc := enc
          totpEnabled := false
          failedAttempts := 0
          windowStart := none
          lockedUntil := none }
      else u) },
    decide (0 < st.users.countP (fun u => u.userID == uid)))

/-- Model of repository `EnableTOTP`: flip `enabled`, zero the lockout
fields; reports whether the user row exists. -/
def enableTOTPRepo (st : RepoState) (uid : List Char) : RepoState × Bool :=
  ({ st with users := st.users.map (fun u =>
      if u.userID == uid then
        { u with
          totpEnabled := true
          failedAttempts := 0
          windowStart := none
          lockedUntil := none }
      else u) },
    decide (0 < st.users.countP (fun u => u.userID == uid)))

/-- Model of `ResetTOTPFailures`: zero the lockout fields; reports whether
the user row exists. -/
def resetTOTPFailures (st : RepoState) (uid : List Char) : RepoState × Bool :=
  ({ st with users := st.users.map (fun u =>
      if u.userID == uid then
        { u with
          failedAttempts := 0
          windowStart := none
          lockedUntil := none }
      else u) },
    decide (0 < st.users.countP (fun u => u.userID == uid)))

/-- Model of `GetTOTPState` (selected fields of the user's row). -/
def getTOTPState (st : RepoState) (uid : List Char) : Option UserRec :=
  st.users.find? (fun u => u.userID == uid)

/-- The per-user MFA lockout triple
`(totp_failed_attempts, totp_window_started_at, totp_locked_until)`. -/
structure LockState where
  failedAttempts : Int
  windowStart : Option Int
  lockedUntil : Option Int
  deriving DecidableEq, Repr

/-- Model of the state transition inside `RecordTOTPFailure` (the body of
the SELECT-FOR-UPDATE transaction): if an unexpired lock exists, return
it and leave the state untouched; otherwise open or keep the failure
window, increment the counter, and either lock (counter reached the
maximum: window cleared, counter zeroed, lock returned) or store the new
counter with no lock. -/
def recordTOTPFailure (st : LockState) (now maxAttempts window lockDuration : Int) :
    LockState × Option Int :=
  let locked := match st.lockedUntil with
    | some t => decide (now < t)
    | none => false
  if locked then
    (st, st.lockedUntil)
  else
    let (fa0, ws0) : Int × Option Int :=
      match st.windowStart with
      | none => (0, some now)
      | some ws => if window < now - ws then (0, some now) else (st.failedAttempts, some ws)
    let fa1 := fa0 + 1
    if maxAttempts ≤ fa1 then
      ({ failedAttempts := 0
         windowStart := none
         lockedUntil := some (now + lockDuration) }, some (now + lockDuration))
    else
      ({ failedAttempts := fa1, windowStart := ws0, lockedUntil := none }, none)

/-- Model of repository `RecordTOTPFailure`: look the user up (absence is
the not-found error, `none`), apply the lockout transition, persist the
resulting fields. -/
def recordTOTPFailureRepo (st : RepoState) (uid : List Char)
    (now maxAttempts window lockDuration : Int) :
    Option (RepoState × Option Int) :=
  match st.users.find? (fun u => u.userID == uid) with
  | none => none
  | some u =>
      let res := recordTOTPFailure
        ⟨u.failedAttempts, u.windowStart, u.lockedUntil⟩ now maxAttempts window
        lockDuration
      some ({ st with users := st.users.map (fun v =>
          if v.userID == uid then
            { v with
              failedAttempts := res.1.failedAttempts
              windowStart := res.1.windowStart
              lockedUntil := res.1.lockedUntil }
          else v) }, res.2)

/-- Model of `ConsumeRecoveryCode`: one conditional update stamping
`used_at` where it is still null; reports whether any row was affected. -/
def consumeRecoveryCode (st : RepoState) (uid : List Char) (codeHash : List Nat)
    (now : Int) : RepoState × Bool :=
  let hit := fun (r : RecRow) =>
    r.userID == uid && r.codeHash == codeHash && r.usedAt.isNone
  ({ st with recoveryCodes := st.recoveryCodes.map (fun r =>
      if hit r then { r with usedAt := some now } else r) },
    decide (0 < st.recoveryCodes.countP hit))

/-- Model of `ReplaceRecoveryCodes`: transactionally drop the user's rows
and insert fresh unused hashes. -/
def replaceRecoveryCodes (st : RepoState) (uid : List Char)
    (hashes : List (List Nat)) : RepoState :=
  { st with recoveryCodes :=
      st.recoveryCodes.filter (fun r => !(r.userID == uid)) ++
        hashes.map (fun h => { userID := uid, codeHash := h, usedAt := none }) }

/-- Abstracted process environment of the auth service: the pepper-keyed
hashes, the argon2 KDF, the TOTP secret codec (all outside src), the IP
normalizer, and the randomness and TTL a login draws. -/
structure Env where
  argon2 : List Char → List Nat → Argon2Params → List Nat
  hashRecoveryCode : List Char → List Nat
  hashToken : List Char → List Nat
  parseTOTPSecret : List Nat → Except Unit (List Char)
  normalizeIP : List Char → List Char
  newToken : List Char
  newSessionID : List Char
  sessionTTL : Int

/-- Model of `VerifyPassword`: recompute argon2 under the stored salt and
parameters and compare (the source's constant-time comparison decides
plain equality). -/
def verifyPassword (env : Env) (password : List Char) (salt expected : List Nat)
    (params : Argon2Params) : Bool :=
  env.argon2 password salt params == expected

/-- Model of `AuthService.isMFALocked`: an unexpired lock timestamp. -/
def isMFALocked (lockedUntil : Option Int) (now : Int) : Bool :=
  match lockedUntil with
  | some t => decide (now < t)
  | none => false

/-- Caller-visible errors of the auth service (`domain` error values). -/
inductive AuthError where
  | emailTaken
  | invalidCredentials
  | weakPassword
  | mfaRequired
  | invalidMFA
  | invalidMFAInput
  | mfaRateLimited
  | unauthorizedSession
  | missingTOTPSecret
  | internalError
  deriving DecidableEq, Repr

/-- Model of `AuthService.recordMFAFailure` with the service constants
(max 5 attempts, 30-second window, 5-minute lock): a missing user is the
unauthorized error; a resulting active lock surfaces as rate-limited,
otherwise the invalid-MFA error. -/
def recordMFAFailureSvc (st : RepoState) (uid : List Char) (now : Int) :
    RepoState × AuthError :=
  match recordTOTPFailureRepo st uid now 5 30 300 with
  | none => (st, .unauthorizedSession)
  | some (st2, lockOpt) =>
      (st2, if isMFALocked lockOpt now then .mfaRateLimited else .invalidMFA)

/-- Input of `Login`. -/
structure LoginInput where
  email : List Char
  password : List Char
  totpCode : List Char
  recoveryCode : List Char
  deviceName : List Char
  ipAddr : List Char
  userAgent : List Char
  deriving DecidableEq, Repr

/-- Output of a successful `Login`. -/
structure LoginOutput where
  sessionToken : List Char
  expiresAt : Int
  deriving DecidableEq, Repr

/-- MFA phase of `Login` (the body of the `record.TOTPEnabled` block):
returns the updated state and `none` on success or the error to surface. -/
def loginMFA (env : Env) (st : RepoState) (record : UserRec)
    (trimmedTOTP trimmedRecovery : List Char) (now : Int) :
    RepoState × Option AuthError :=
  if !record.totpEnabled then (st, none)
  else if isMFALocked record.lockedUntil now then (st, some .mfaRateLimited)
  else if trimmedTOTP.isEmpty && trimmedRecovery.isEmpty then (st, some .mfaRequired)
  else if !trimmedRecovery.isEmpty then
    let res := consumeRecoveryCode st record.userID
      (env.hashRecoveryCode trimmedRecovery) now
    if !res.2 then
      let rec2 := recordMFAFailureSvc res.1 record.userID now
      (rec2.1, some rec2.2)
    else
      let res3 := resetTOTPFailures res.1 record.userID
      if res3.2 then (res3.1, none) else (res3.1, some .internalError)
  else
    match env.parseTOTPSecret record.totpSecretEnc with
    | .error _ => (st, some .internalError)
    | .ok secret =>
        if !VerifyTOTP secret trimmedTOTP now then
          let rec2 := recordMFAFailureSvc st record.userID now
          (rec2.1, some rec2.2)
        else
          let res3 := resetTOTPFailures st record.userID
          if res3.2 then (res3.1, none) else (res3.1, some .internalError)

/-- Model of `AuthService.Login`: normalize and null-check credentials,
reject ambiguous MFA input, look up the user, parse stored hash
parameters, verify the password, run the MFA phase when TOTP is enabled,
then issue a session. -/
def login (env : Env) (st : RepoState) (input : LoginInput) (now : Int) :
    RepoState × Except AuthError LoginOutput :=
  let normalizedEmail := normalizeEmail input.email
  if normalizedEmail.isEmpty || input.password.isEmpty then
    (st, .error .invalidCredentials)
  else
    let trimmedTOTP := trimSpace input.totpCode
    let trimmedRecovery := trimSpace input.recoveryCode
    if !trimmedTOTP.isEmpty && !trimmedRecovery.isEmpty then
      (st, .error .invalidMFAInput)
    else
      match getUserAuthByEmail st normalizedEmail with
      | none => (st, .error .invalidCredentials)
      | some record =>
          match parseArgon2Params record.rawParams with
          | .error _ => (st, .error .internalError)
          | .ok params =>
              if !verifyPassword env input.password record.salt
                  record.passwordHash params then
                (st, .error .invalidCredentials)
              else
                let mfa := loginMFA env st record trimmedTOTP trimmedRecovery now
                match mfa.2 with
                | some e => (mfa.1, .error e)
                | none =>
                    let expiresAt := now + env.sessionTTL
                    (createSession mfa.1
                      { sessionID := env.newSessionID
                        userID := record.userID
                        tokenHash := env.hashToken env.newToken
                        deviceName := trimSpace input.deviceName
                        ipAddr := env.normalizeIP input.ipAddr
                        userAgent := trimSpace input.userAgent
                        expiresAt := expiresAt
                        revokedAt := none },
                      .ok { sessionToken := env.newToken, expiresAt := expiresAt })

/-- Repository calls a service operation performs (used to state that the
empty-token fast path touches no storage). -/
inductive RepoCall where
  | getActiveSessionByTokenHash (tokenHash : List Nat)
  | revokeSessionByTokenHash (tokenHash : List Nat)
  deriving DecidableEq, Repr

/-- Model of `AuthService.Authenticate`: empty or all-whitespace tokens
fail unauthorized without any repository call; otherwise the hashed token
is looked up and both not-found and found collapse to a single outcome
kind (the session or the one unauthorized error). -/
def authenticate (env : Env) (st : RepoState) (token : List Char) (now : Int) :
    Except AuthError SessionRow × List RepoCall :=
  if (trimSpace token).isEmpty then (.error .unauthorizedSession, [])
  else
    match getActiveSessionByTokenHash st (env.hashToken token) now with
    | none => (.error .unauthorizedSession,
        [.getActiveSessionByTokenHash (env.hashToken token)])
    | some s => (.ok s, [.getActiveSessionByTokenHash (env.hashToken token)])

/-- Model of `AuthService.Logout`: empty or all-whitespace tokens fail
unauthorized without any repository call; otherwise revoke by token hash,
reporting unauthorized when nothing was revoked. -/
def logout (env : Env) (st : RepoState) (token : List Char) (now : Int) :
    RepoState × Except AuthError Unit × List RepoCall :=
  if (trimSpace token).isEmpty then (st, .error .unauthorizedSession, [])
  else
    let res := revokeSessionByTokenHash st (env.hashToken token) now
    (res.1,
      if res.2 then .ok () else .error .unauthorizedSession,
      [.revokeSessionByTokenHash (env.hashToken token)])

/-- Per-user view of the lockout fields, for the ownership invariant. -/
def lockoutView (st : RepoState) : List (List Char × Int × Option Int × Option Int) :=
  st.users.map (fun u => (u.userID, u.failedAttempts, u.windowStart, u.lockedUntil))

/-- Concrete environment for witnesses: transparent hashes, a constant
argon2, fixed randomness. -/
def envC : Env :=
  { argon2 := fun _ _ _ => [1]
    hashRecoveryCode := fun c => c.map Char.toNat
    hashToken := fun c => c.map Char.toNat
    parseTOTPSecret := fun _ => .ok rfcSecret
    normalizeIP := fun s => s
    newToken := "tok".data
    newSessionID := "sid".data
    sessionTTL := 3600 }

/-- Concrete user with two failed MFA attempts inside an open window. -/
def user7 : UserRec :=
  { userID := "u1".data
    email := "a@b.c".data
    name := []
    salt := []
    passwordHash := [1]
    rawParams := some ⟨65536, 3, 2, 32⟩
    totpEnabled := false
    totpSecretEnc := []
    failedAttempts := 2
    windowStart := some 50
    lockedUntil := none }

/-- Concrete state holding `user7`. -/
def st7 : RepoState := { users := [user7], sessions := [], recoveryCodes := [] }

/-- Concrete TOTP-disabled user with a verifiable password under `envC`. -/
def rec6 : UserRec :=
  { userID := "u1".data
    email := "a@b.c".data
    name := []
    salt := []
    passwordHash := [1]
    rawParams := some ⟨65536, 3, 2, 32⟩
    totpEnabled := false
    totpSecretEnc := []
    failedAttempts := 0
    windowStart := none
    lockedUntil := none }

/-- Concrete state holding `rec6`. -/
def st6 : RepoState := { users := [rec6], sessions := [], recoveryCodes := [] }

/-- Login input supplying both a TOTP code and a recovery code. -/
def input6 : LoginInput :=
  { email := "a@b.c".data
    password := "pw".data
    totpCode := "111111".data
    recoveryCode := "RC".data
    deviceName := []
    ipAddr := []
    userAgent := [] }

/-- Login input supplying only a recovery code. -/
def input6r : LoginInput :=
  { email := "a@b.c".data
    password := "pw".data
    totpCode := []
    recoveryCode := "RC".data
    deviceName := []
    ipAddr := []
    userAgent := [] }

/-- Concrete TOTP-enabled user sitting at four failed attempts inside an
open window. -/
def rec4 : UserRec :=
  { userID := "u1".data
    email := "a@b.c".data
    name := []
    salt := []
    passwordHash := [1]
    rawParams := some ⟨65536, 3, 2, 32⟩
    totpEnabled := true
    totpSecretEnc := []
    failedAttempts := 4
    windowStart := some 1000
    lockedUntil := none }

/-- Concrete state where the only recovery code row is already consumed. -/
def st4 : RepoState :=
  { users := [rec4]
    sessions := []
    recoveryCodes := [{ userID := "u1".data
                        codeHash := "RC".data.map Char.toNat
                        usedAt := some 5 }] }

/-- Concrete state with one unused recovery code row. -/
def stRC : RepoState :=
  { users := []
    sessions := []
    recoveryCodes := [{ userID := "u1".data
                        codeHash := "RC".data.map Char.toNat
                        usedAt := none }] }

/-- Concrete active session row matching `envC`'s hash of "tok". -/
def rowW : SessionRow :=
  { sessionID := "s1".data
    userID := "u1".data
    tokenHash := "tok".data.map Char.toNat
    deviceName := []
    ipAddr := []
    userAgent := []
    expiresAt := 100
    revokedAt := none }

/-- Concrete state holding the active session `rowW`. -/
def stW : RepoState := { users := [], sessions := [rowW], recoveryCodes := [] }

instance {ε α : Type} [DecidableEq ε] [DecidableEq α] :
    DecidableEq (Except ε α) := fun a b =>
  match a, b with
  | .ok x, .ok y =>
      if h : x = y then isTrue (by rw [h]) else isFalse (by simp [h])
  | .error x, .error y =>
      if h : x = y then isTrue (by rw [h]) else isFalse (by simp [h])
  | .ok _, .error _ => isFalse (by simp)
  | .error _, .ok _ => isFalse (by simp)

theorem b64_index_char : ∀ i, i < 64 → b64IndexOfChar (b64CharOfIndex i) = some i := by decide

theorem b64_char_alpha : ∀ i, i < 64 → isB64Char (b64CharOfIndex i) = true := by decide

theorem b64_char_ne_pad : ∀ i, i < 64 → (b64CharOfIndex i == '=') = false := by decide

theorem isB64Char_pad : isB64Char '=' = false := by decide

theorem b64Val_char (i : Nat) (h : i < 64) : b64Val (b64CharOfIndex i) = i := by
  simp [b64Val, b64_index_char i h]

theorem validB64Groups_toBase64 (bs : List Nat) (h : allBytes bs) :
    validB64Groups (toBase64 bs) = true := by
  induction bs using toBase64.induct with
  | case1 => rfl
  | case2 b0 =>
      have hb0 : b0 < 256 := h b0 (by simp)
      simp [toBase64, validB64Groups, b64_char_alpha _ (by omega : b0 / 4 < 64),
        b64_char_alpha _ (by omega : b0 % 4 * 16 < 64), isB64Char_pad]
  | case3 b0 b1 =>
      have hb0 : b0 < 256 := h b0 (by simp)
      have hb1 : b1 < 256 := h b1 (by simp)
      simp [toBase64, validB64Groups, b64_char_alpha _ (by omega : b0 / 4 < 64),
        b64_char_alpha _ (by omega : b0 % 4 * 16 + b1 / 16 < 64),
        b64_char_alpha _ (by omega : b1 % 16 * 4 < 64), isB64Char_pad]
  | case4 b0 b1 b2 rest ih =>
      have hb0 : b0 < 256 := h b0 (by simp)
      have hb1 : b1 < 256 := h b1 (by simp)
      have hb2 : b2 < 256 := h b2 (by simp)
      have hrest : allBytes rest := fun b hb => h b (by simp [hb])
      simp [toBase64, validB64Groups, b64_char_alpha _ (by omega : b0 / 4 < 64),
        b64_char_alpha _ (by omega : b0 % 4 * 16 + b1 / 16 < 64),
        b64_char_alpha _ (by omega : b1 % 16 * 4 + b2 / 64 < 64),
        b64_char_alpha _ (by omega : b2 % 64 < 64), ih hrest]

theorem length_toBase64_mod4 (bs : List Nat) : (toBase64 bs).length % 4 = 0 := by
  induction bs using toBase64.induct <;> simp_all [toBase64]
  omega

theorem toBase64_ne_nil (bs : List Nat) (h : bs ≠ []) : toBase64 bs ≠ [] := by
  cases bs with
  | nil => exact absurd rfl h
  | cons b0 rest =>
      cases rest with
      | nil => simp [toBase64]
      | cons b1 rest2 => cases rest2 <;> simp [toBase64]

theorem decodeB64Groups_toBase64 (bs : List Nat) (h : allBytes bs) :
    decodeB64Groups (toBase64 bs) = bs := by
  induction bs using toBase64.induct with
  | case1 => rfl
  | case2 b0 =>
      have hb0 : b0 < 256 := h b0 (by simp)
      simp only [toBase64, decodeB64Groups]
      rw [b64Val_char _ (by omega), b64Val_char _ (by omega)]
      simp
      omega
  | case3 b0 b1 =>
      have hb0 : b0 < 256 := h b0 (by simp)
      have hb1 : b1 < 256 := h b1 (by simp)
      simp only [toBase64, decodeB64Groups]
      rw [b64Val_char _ (by omega), b64Val_char _ (by omega)]
      simp [b64_char_ne_pad _ (by omega : b1 % 16 * 4 < 64)]
      rw [b64Val_char _ (by omega)]
      constructor
      · omega
      · omega
  | case4 b0 b1 b2 rest ih =>
      have hb0 : b0 < 256 := h b0 (by simp)
      have hb1 : b1 < 256 := h b1 (by simp)
      have hb2 : b2 < 256 := h b2 (by simp)
      have hrest : allBytes rest := fun b hb => h b (by simp [hb])
      simp only [toBase64, decodeB64Groups]
      simp [b64_char_ne_pad _ (by omega : b2 % 64 < 64)]
      rw [b64Val_char _ (by omega), b64Val_char _ (by omega),
        b64Val_char _ (by omega), b64Val_char _ (by omega)]
      refine ⟨by omega, by omega, by omega, ih hrest⟩

theorem fromBase64_toBase64 (bs : List Nat) (h : allBytes bs) (hne : bs ≠ []) :
    fromBase64 (toBase64 bs) = .ok bs := by
  have hv : isValidBase64 (toBase64 bs) = true := by
    simp [isValidBase64, length_toBase64_mod4, validB64Groups_toBase64 bs h,
      toBase64_ne_nil bs hne]
  simp [fromBase64, hv, decodeB64Groups_toBase64 bs h]

/-- Decoding a base64-encoded field with its exact expected length succeeds. -/
theorem decodeBase64Field_encode_len (bs : List Nat) (hB : allBytes bs)
    (hne : bs ≠ []) (n : Nat) (h : bs.length = n) :
    decodeBase64Field (toBase64 bs) (some n) = .ok bs := by
  simp [decodeBase64Field, fromBase64_toBase64 bs hB hne, h]

/-- Decoding a base64-encoded field without a length expectation succeeds. -/
theorem decodeBase64Field_encode (bs : List Nat) (hB : allBytes bs)
    (hne : bs ≠ []) : decodeBase64Field (toBase64 bs) none = .ok bs := by
  simp [decodeBase64Field, fromBase64_toBase64 bs hB hne]

/-- With well-sized key and nonce, the adapter decrypt reduces to the AEAD
open, mapping rejection to the authentication error. -/
theorem aeadDecrypt_of_lengths (A : Aead) (key nonce ct : List Nat)
    (aad : Option (List Nat)) (hk : key.length = A.keyLength)
    (hnn : nonce.length = A.nonceLength) :
    aeadDecrypt A key nonce ct aad =
      match A.openFn key nonce ct (aad.getD []) with
      | some pt => .ok pt
      | none => .error .authenticationFailed := by
  simp [aeadDecrypt, hk, hnn]

/-- Evaluation of `decryptVaultItem` on a payload whose four fields are the
base64 encodings of given byte lists: after the validation and decoding
steps (which succeed under the stated well-formedness conditions), the
result is determined by the two AEAD opens, each failure collapsing to the
single authentication error. -/
theorem decryptVaultItem_eval (A : Aead) (kek wn wd n ct : List Nat)
    (aad : Option (List Nat))
    (hkek : kek.length = A.keyLength)
    (hwn : wn.length = A.nonceLength) (hn : n.length = A.nonceLength)
    (hnl : 0 < A.nonceLength)
    (hwnB : allBytes wn) (hwdB : allBytes wd) (hnB : allBytes n)
    (hctB : allBytes ct) (hwdNe : wd ≠ []) (hctNe : ct ≠ []) :
    decryptVaultItem A
      { version := vaultVersion, nonce := toBase64 n, ciphertext := toBase64 ct,
        wrappedDek := toBase64 wd, wrapNonce := toBase64 wn } kek aad =
      match A.openFn kek wn wd dekWrapAad with
      | none => .error .authenticationFailed
      | some dek =>
          if dek.length = A.keyLength then
            match A.openFn dek n ct (aad.getD []) with
            | none => .error .authenticationFailed
            | some pt => .ok pt
          else .error .dekLength := by
  have hwnNe : wn ≠ [] := by
    intro hcon; rw [hcon] at hwn; simp at hwn; omega
  have hnNe : n ≠ [] := by
    intro hcon; rw [hcon] at hn; simp at hn; omega
  simp only [decryptVaultItem]
  rw [if_neg (by simp)]
  rw [if_neg (by simp [hkek])]
  rw [if_neg (by
    simp [List.isEmpty_iff, toBase64_ne_nil _ hwnNe, toBase64_ne_nil _ hnNe,
      toBase64_ne_nil _ hwdNe, toBase64_ne_nil _ hctNe])]
  rw [decodeBase64Field_encode_len wn hwnB hwnNe _ hwn,
    decodeBase64Field_encode wd hwdB hwdNe,
    decodeBase64Field_encode_len n hnB hnNe _ hn,
    decodeBase64Field_encode ct hctB hctNe]
  simp only [bind, Except.bind]
  rw [aeadDecrypt_of_lengths A kek wn wd _ hkek hwn]
  cases hopen : A.openFn kek wn wd ((some dekWrapAad).getD []) with
  | none => simp only [Option.getD_some] at hopen ⊢; rw [hopen]
  | some dek =>
      simp only [Option.getD_some] at hopen
      rw [hopen]
      simp only [bind, Except.bind]
      by_cases hdl : dek.length = A.keyLength
      · rw [if_neg (by omega), if_pos hdl,
          aeadDecrypt_of_lengths A dek n ct aad hdl hn]
        cases A.openFn dek n ct (aad.getD []) <;> simp
      · rw [if_pos (by omega), if_neg hdl]
/-- C1: for every plaintext, KEK of the AEAD's key length, and associated
data, decrypting the payload produced by `encryptVaultItem` with the same
KEK and associated data returns the original plaintext, assuming an AEAD
adapter whose open inverts its seal (and which, like XChaCha20-Poly1305,
emits nonempty byte-valued ciphertexts).  The randomness drawn inside
`encryptVaultItem` appears as the `dek`, `nonce`, `wrapNonce` arguments
with exactly the lengths `randomBytes` produces. -/
theorem vault_roundtrip_law (A : Aead) (kek dek nonce wrapNonce pt : List Nat)
    (aad : Option (List Nat)) (payload : EncryptedVaultItem)
    (hinv : ∀ k n p a, A.openFn k n (A.sealFn k n p a) a = some p)
    (hkek : kek.length = A.keyLength) (hdek : dek.length = A.keyLength)
    (hnl : nonce.length = A.nonceLength) (hwl : wrapNonce.length = A.nonceLength)
    (hnB : allBytes nonce) (hwB : allBytes wrapNonce)
    (hn0 : 0 < A.nonceLength)
    (hctB : allBytes (A.sealFn dek nonce pt (aad.getD [])))
    (hwdB : allBytes (A.sealFn kek wrapNonce dek dekWrapAad))
    (hctNe : A.sealFn dek nonce pt (aad.getD []) ≠ [])
    (hwdNe : A.sealFn kek wrapNonce dek dekWrapAad ≠ [])
    (henc : encryptVaultItem A kek dek nonce wrapNonce pt aad = .ok payload) :
    decryptVaultItem A payload kek aad = .ok pt := by
  rw [encryptVaultItem, if_neg (by omega), aeadEncrypt,
    if_neg (by omega), if_neg (by omega), aeadEncrypt,
    if_neg (by omega), if_neg (by omega)] at henc
  simp only [bind, Except.bind, Option.getD_some, pure, Except.pure,
    Except.ok.injEq] at henc
  subst henc
  rw [decryptVaultItem_eval A kek wrapNonce (A.sealFn kek wrapNonce dek dekWrapAad)
    nonce (A.sealFn dek nonce pt (aad.getD [])) aad hkek hwl hnl hn0
    hwB hwdB hnB hctB hwdNe hctNe]
  rw [hinv kek wrapNonce dek dekWrapAad]
  simp only [if_pos hdek, hinv dek nonce pt (aad.getD [])]

/-- Witness for C1 at a fully concrete instance: the toy AEAD, 32-byte
keys, 24-byte nonces and the plaintext "hi" round-trip. -/
theorem vault_roundtrip_law_witness :
    decryptVaultItem toyAead toyPayload toyKek none = .ok toyPt :=
  vault_roundtrip_law toyAead toyKek toyDek toyNonce toyWrapNonce toyPt none
    toyPayload (fun _ _ _ _ => rfl) (by decide) (by decide) (by decide)
    (by decide) (by decide) (by decide) (by decide) (by decide) (by decide)
    (by decide) (by decide) rfl

/-- When the AEAD open accepts only genuine sealings (which holds
deterministically for XChaCha20-Poly1305: an accepted ciphertext re-seals
to itself), any value outside the seal image is rejected. -/
theorem openFn_none_of_not_sealed (A : Aead)
    (hsound : ∀ k n c a p, A.openFn k n c a = some p → A.sealFn k n p a = c)
    (k n c a : List Nat) (hforge : ∀ p, A.sealFn k n p a ≠ c) :
    A.openFn k n c a = none := by
  cases h : A.openFn k n c a with
  | none => rfl
  | some p => exact absurd (hsound k n c a p h) (hforge p)

/-- The toy AEAD's open accepts only values produced by its seal. -/
theorem toyAead_sound :
    ∀ k n c a p, toyAead.openFn k n c a = some p → toyAead.sealFn k n p a = c := by
  intro k n c a p h
  cases c with
  | nil => simp [toyAead] at h
  | cons b t =>
    cases b with
    | zero => simp [toyAead] at h; simp [toyAead, h]
    | succ b2 => simp [toyAead] at h

/-- C2: tampering with any single field of a valid payload (ciphertext,
wrapped DEK, content nonce, wrap nonce), or supplying a wrong same-length
KEK or different associated data, makes `decryptVaultItem` fail with the
single `authenticationFailed` error and never yields plaintext.  The AEAD
adapter's authenticity enters symbolically: `hsound` says open accepts
only genuine sealings (true deterministically of the cipher), and each
scenario assumes the tampered value is not itself a valid sealing — the
symbolic reading of forgery being infeasible.  Byte flips preserve length
and byte-hood, so every single-byte flip of a decoded field is an
instance of the corresponding scenario. -/
theorem vault_tamper_auth_failed (A : Aead) (kek dek nonce wrapNonce pt : List Nat)
    (aad : Option (List Nat)) (payload : EncryptedVaultItem)
    (hsound : ∀ k n c a p, A.openFn k n c a = some p → A.sealFn k n p a = c)
    (hinv : ∀ k n p a, A.openFn k n (A.sealFn k n p a) a = some p)
    (hkek : kek.length = A.keyLength) (hdek : dek.length = A.keyLength)
    (hnl : nonce.length = A.nonceLength) (hwl : wrapNonce.length = A.nonceLength)
    (hnB : allBytes nonce) (hwB : allBytes wrapNonce)
    (hn0 : 0 < A.nonceLength)
    (hctB : allBytes (A.sealFn dek nonce pt (aad.getD [])))
    (hwdB : allBytes (A.sealFn kek wrapNonce dek dekWrapAad))
    (hctNe : A.sealFn dek nonce pt (aad.getD []) ≠ [])
    (hwdNe : A.sealFn kek wrapNonce dek dekWrapAad ≠ [])
    (henc : encryptVaultItem A kek dek nonce wrapNonce pt aad = .ok payload) :
    (∀ ct2, allBytes ct2 → ct2 ≠ [] →
      (∀ p, A.sealFn dek nonce p (aad.getD []) ≠ ct2) →
      decryptVaultItem A { payload with ciphertext := toBase64 ct2 } kek aad
        = .error .authenticationFailed) ∧
    (∀ wd2, allBytes wd2 → wd2 ≠ [] →
      (∀ p, A.sealFn kek wrapNonce p dekWrapAad ≠ wd2) →
      decryptVaultItem A { payload with wrappedDek := toBase64 wd2 } kek aad
        = .error .authenticationFailed) ∧
    (∀ n2, allBytes n2 → n2.length = nonce.length →
      (∀ p, A.sealFn dek n2 p (aad.getD []) ≠ A.sealFn dek nonce pt (aad.getD [])) →
      decryptVaultItem A { payload with nonce := toBase64 n2 } kek aad
        = .error .authenticationFailed) ∧
    (∀ w2, allBytes w2 → w2.length = wrapNonce.length →
      (∀ p, A.sealFn kek w2 p dekWrapAad ≠ A.sealFn kek wrapNonce dek dekWrapAad) →
      decryptVaultItem A { payload with wrapNonce := toBase64 w2 } kek aad
        = .error .authenticationFailed) ∧
    (∀ kek2, kek2.length = A.keyLength →
      (∀ p, A.sealFn kek2 wrapNonce p dekWrapAad ≠ A.sealFn kek wrapNonce dek dekWrapAad) →
      decryptVaultItem A payload kek2 aad = .error .authenticationFailed) ∧
    (∀ aad2 : Option (List Nat),
      (∀ p, A.sealFn dek nonce p (aad2.getD []) ≠ A.sealFn dek nonce pt (aad.getD [])) →
      decryptVaultItem A payload kek aad2 = .error .authenticationFailed) := by
  rw [encryptVaultItem, if_neg (by omega), aeadEncrypt,
    if_neg (by omega), if_neg (by omega), aeadEncrypt,
    if_neg (by omega), if_neg (by omega)] at henc
  simp only [bind, Except.bind, Option.getD_some, pure, Except.pure,
    Except.ok.injEq] at henc
  subst henc
  refine ⟨?_, ?_, ?_, ?_, ?_, ?_⟩
  · intro ct2 hB hNe hforge
    show decryptVaultItem A
      ⟨vaultVersion, toBase64 nonce, toBase64 ct2,
       toBase64 (A.sealFn kek wrapNonce dek dekWrapAad), toBase64 wrapNonce⟩
      kek aad = .error .authenticationFailed
    rw [decryptVaultItem_eval A kek wrapNonce _ nonce ct2 aad hkek hwl hnl hn0
      hwB hwdB hnB hB hwdNe hNe]
    rw [hinv kek wrapNonce dek dekWrapAad]
    simp [hdek, openFn_none_of_not_sealed A hsound dek nonce ct2 (aad.getD []) hforge]
  · intro wd2 hB hNe hforge
    show decryptVaultItem A
      ⟨vaultVersion, toBase64 nonce, toBase64 (A.sealFn dek nonce pt (aad.getD [])),
       toBase64 wd2, toBase64 wrapNonce⟩
      kek aad = .error .authenticationFailed
    rw [decryptVaultItem_eval A kek wrapNonce wd2 nonce _ aad hkek hwl hnl hn0
      hwB hB hnB hctB hNe hctNe]
    rw [openFn_none_of_not_sealed A hsound kek wrapNonce wd2 dekWrapAad hforge]
  · intro n2 hB hLen hforge
    show decryptVaultItem A
      ⟨vaultVersion, toBase64 n2, toBase64 (A.sealFn dek nonce pt (aad.getD [])),
       toBase64 (A.sealFn kek wrapNonce dek dekWrapAad), toBase64 wrapNonce⟩
      kek aad = .error .authenticationFailed
    rw [decryptVaultItem_eval A kek wrapNonce _ n2 _ aad hkek hwl
      (by rw [hLen]; exact hnl) hn0 hwB hwdB hB hctB hwdNe hctNe]
    rw [hinv kek wrapNonce dek dekWrapAad]
    simp [hdek, openFn_none_of_not_sealed A hsound dek n2 _ (aad.getD []) hforge]
  · intro w2 hB hLen hforge
    show decryptVaultItem A
      ⟨vaultVersion, toBase64 nonce, toBase64 (A.sealFn dek nonce pt (aad.getD [])),
       toBase64 (A.sealFn kek wrapNonce dek dekWrapAad), toBase64 w2⟩
      kek aad = .error .authenticationFailed
    rw [decryptVaultItem_eval A kek w2 _ nonce _ aad hkek
      (by rw [hLen]; exact hwl) hnl hn0 hB hwdB hnB hctB hwdNe hctNe]
    rw [openFn_none_of_not_sealed A hsound kek w2 _ dekWrapAad hforge]
  · intro kek2 hk2 hforge
    show decryptVaultItem A
      ⟨vaultVersion, toBase64 nonce, toBase64 (A.sealFn dek nonce pt (aad.getD [])),
       toBase64 (A.sealFn kek wrapNonce dek dekWrapAad), toBase64 wrapNonce⟩
      kek2 aad = .error .authenticationFailed
    rw [decryptVaultItem_eval A kek2 wrapNonce _ nonce _ aad hk2 hwl hnl hn0
      hwB hwdB hnB hctB hwdNe hctNe]
    rw [openFn_none_of_not_sealed A hsound kek2 wrapNonce _ dekWrapAad hforge]
  · intro aad2 hforge
    show decryptVaultItem A
      ⟨vaultVersion, toBase64 nonce, toBase64 (A.sealFn dek nonce pt (aad.getD [])),
       toBase64 (A.sealFn kek wrapNonce dek dekWrapAad), toBase64 wrapNonce⟩
      kek aad2 = .error .authenticationFailed
    rw [decryptVaultItem_eval A kek wrapNonce _ nonce _ aad2 hkek hwl hnl hn0
      hwB hwdB hnB hctB hwdNe hctNe]
    rw [hinv kek wrapNonce dek dekWrapAad]
    simp [hdek, openFn_none_of_not_sealed A hsound dek nonce _ (aad2.getD []) hforge]

/-- Witness for C2 at a fully concrete instance: flipping the first byte of
the decoded ciphertext of the toy payload makes decryption fail with the
authentication error. -/
theorem vault_tamper_auth_failed_witness :
    decryptVaultItem toyAead
      { toyPayload with ciphertext := toBase64 (1 :: toyPt) } toyKek none
      = .error .authenticationFailed :=
  (vault_tamper_auth_failed toyAead toyKek toyDek toyNonce toyWrapNonce toyPt
    none toyPayload toyAead_sound (fun _ _ _ _ => rfl) (by decide) (by decide)
    (by decide) (by decide) (by decide) (by decide) (by decide) (by decide)
    (by decide) (by decide) (by decide) rfl).1
    (1 :: toyPt) (by decide) (by decide) (fun p => by simp [toyAead])

/-- Digits never count as white space. -/
theorem isSpaceChar_digit (m : Nat) : isSpaceChar (Char.ofNat (48 + m % 10)) = false := by
  have hk : m % 10 < 10 := Nat.mod_lt _ (by omega)
  revert hk
  generalize m % 10 = k
  intro hk
  interval_cases k <;> decide

/-- A six-digit formatted code is unchanged by trimming. -/
theorem trimSpace_format6 (n : Nat) : trimSpace (format6 n) = format6 n := by
  simp [trimSpace, format6, List.dropWhile, isSpaceChar_digit]

/-- A TOTP candidate code is unchanged by trimming. -/
theorem trimSpace_totpCode (s : List Nat) (c : Nat) :
    trimSpace (totpCodeForCounter s c) = totpCodeForCounter s c :=
  trimSpace_format6 _

/-- A TOTP candidate code has exactly six characters. -/
theorem totpCode_length (s : List Nat) (c : Nat) :
    (totpCodeForCounter s c).length = 6 := rfl

/-- C5 (amended): for every base32-decodable secret, `VerifyTOTP` accepts
exactly the trimmed six-character codes equal to the HOTP candidate of
one of the time steps now-1, now, now+1; a code whose trimmed length is
not 6 is rejected with a result independent of the code function (no code
is computed); and a code computed for a time step 90 seconds or more
ahead is rejected provided it does not collide with one of the three
in-window candidates (without that proviso the claim fails, see the
counterexample). -/
theorem verifyTOTP_spec (secret code : List Char) (now : Int) (key : List Nat)
    (hsec : base32Decode (secret.map toUpperChar) = some key) :
    (VerifyTOTP secret code now = true ↔
      (trimSpace code).length = 6 ∧
      (trimSpace code = totpCodeForCounter key (counterFromTime now (-1)) ∨
       trimSpace code = totpCodeForCounter key (counterFromTime now 0) ∨
       trimSpace code = totpCodeForCounter key (counterFromTime now 1))) ∧
    (∀ f g : List Nat → Nat → List Char, (trimSpace code).length ≠ 6 →
      verifyTOTPWith f secret code now = verifyTOTPWith g secret code now ∧
      verifyTOTPWith f secret code now = false) ∧
    (∀ d : Int, 90 ≤ d →
      totpCodeForCounter key (counterFromTime (now + d) 0)
          ≠ totpCodeForCounter key (counterFromTime now (-1)) →
      totpCodeForCounter key (counterFromTime (now + d) 0)
          ≠ totpCodeForCounter key (counterFromTime now 0) →
      totpCodeForCounter key (counterFromTime (now + d) 0)
          ≠ totpCodeForCounter key (counterFromTime now 1) →
      VerifyTOTP secret (totpCodeForCounter key (counterFromTime (now + d) 0)) now
        = false) := by
  refine ⟨?_, ?_, ?_⟩
  · simp only [VerifyTOTP, verifyTOTPWith, hsec]
    by_cases h : (trimSpace code).length = 6 <;> simp [h, or_assoc]
  · intro f g h
    constructor <;> simp [verifyTOTPWith, h]
  · intro d hd h1 h2 h3
    simp [VerifyTOTP, verifyTOTPWith, hsec, trimSpace_totpCode, totpCode_length,
      h1, h2, h3]

set_option maxRecDepth 1000000 in
/-- Counterexample to C5 as stated: with the RFC 6238 secret, at
`now = 3102720` the code computed for the time step 90 seconds ahead
collides with the current step's code, so `VerifyTOTP` accepts it. -/
theorem verifyTOTP_far_step_accepted_cex :
    base32Decode (rfcSecret.map toUpperChar) = some rfcKey ∧
    totpCodeForCounter rfcKey (counterFromTime (3102720 + 90) 0) = "746629".data ∧
    VerifyTOTP rfcSecret "746629".data 3102720 = true := by
  refine ⟨by decide, by decide, by decide⟩

set_option maxRecDepth 1000000 in
/-- Witness for the amended C5 at a concrete instance: the RFC 6238 code
"287082" of time step 1 is accepted at `now = 59`. -/
theorem verifyTOTP_spec_witness :
    VerifyTOTP rfcSecret "287082".data 59 = true :=
  ((verifyTOTP_spec rfcSecret "287082".data 59 rfcKey (by decide)).1).mpr
    (by decide)


/-- C3: the lockout transition applied by `RecordTOTPFailure` with the
service parameters (5 attempts, 30-second window, 300-second lock).  An
unexpired lock is returned unchanged without increment; otherwise a
missing or stale window resets the counter and opens a window at `now`,
the counter is incremented, and on reaching the maximum the state becomes
a cleared window, a zero counter and a lock `now + 300` (also returned);
below the maximum the new counter and window are stored with no lock.
(`recordTOTPFailureRepo` persists exactly this transition for the row of
the given user.) -/
theorem recordTOTPFailure_spec (st : LockState) (now : Int) :
    (∀ t, st.lockedUntil = some t → now < t →
      recordTOTPFailure st now 5 30 300 = (st, some t)) ∧
    ((st.lockedUntil = none ∨ ∃ t, st.lockedUntil = some t ∧ t ≤ now) →
      (let fresh : Bool := match st.windowStart with
        | none => true
        | some ws => decide (30 < now - ws)
       let fa := (if fresh then 0 else st.failedAttempts) + 1
       if 5 ≤ fa then
         recordTOTPFailure st now 5 30 300 =
           ({ failedAttempts := 0
              windowStart := none
              lockedUntil := some (now + 300) }, some (now + 300))
       else
         recordTOTPFailure st now 5 30 300 =
           ({ failedAttempts := fa
              windowStart := if fresh then some now else st.windowStart
              lockedUntil := none }, none))) := by
  constructor
  · intro t ht hlt
    simp [recordTOTPFailure, ht, hlt]
  · intro hnl
    have hlocked :
        (match st.lockedUntil with
          | some t => decide (now < t)
          | none => false) = false := by
      rcases hnl with h | ⟨t, ht, hle⟩
      · simp [h]
      · simp [ht]; omega
    cases hws : st.windowStart with
    | none =>
        simp [recordTOTPFailure, hlocked, hws]
    | some ws =>
        by_cases hfresh : (30 : Int) < now - ws
        · simp [recordTOTPFailure, hlocked, hws, hfresh]
        · by_cases hmax : (5 : Int) ≤ st.failedAttempts + 1
          · simp [recordTOTPFailure, hlocked, hws, hfresh, hmax]
          · simp [recordTOTPFailure, hlocked, hws, hfresh, hmax]

/-- Witness for C3 at a concrete state: four prior failures in a live
window; the fifth failure locks for 300 seconds and zeroes the state. -/
theorem recordTOTPFailure_spec_witness :
    recordTOTPFailure ⟨4, some 100, none⟩ 110 5 30 300 =
      ({ failedAttempts := 0, windowStart := none, lockedUntil := some 410 },
        some 410) := by
  have h := (recordTOTPFailure_spec ⟨4, some 100, none⟩ 110).2 (Or.inl rfl)
  simpa using h

/-- Counterexample to C7 as stated: `SetTOTPSecret` and the repository
`EnableTOTP` both write the lockout fields (they zero the counter and
clear the window), so operations other than `RecordTOTPFailure` and
`ResetTOTPFailures` do write them. -/
theorem setTOTPSecret_writes_lockout_cex :
    lockoutView st7 = [("u1".data, 2, some 50, none)] ∧
    lockoutView (setTOTPSecret st7 "u1".data [9]).1 = [("u1".data, 0, none, none)] ∧
    lockoutView (enableTOTPRepo st7 "u1".data).1 = [("u1".data, 0, none, none)] :=
  ⟨by decide, by decide, by decide⟩

/-- C7 (amended): the lockout fields are written only by
`RecordTOTPFailure`, `ResetTOTPFailures`, `SetTOTPSecret` and
`EnableTOTP`; the session and recovery-code operations preserve every
user's `failed_attempts`, `window_started_at` and `locked_until`. -/
theorem lockout_fields_writers (st : RepoState) (row : SessionRow)
    (h codeHash : List Nat) (now : Int) (uid : List Char)
    (hashes : List (List Nat)) :
    lockoutView (createSession st row) = lockoutView st ∧
    lockoutView (revokeSessionByTokenHash st h now).1 = lockoutView st ∧
    lockoutView (deleteExpiredSessions st now).1 = lockoutView st ∧
    lockoutView (consumeRecoveryCode st uid codeHash now).1 = lockoutView st ∧
    lockoutView (replaceRecoveryCodes st uid hashes) = lockoutView st :=
  ⟨rfl, rfl, rfl, rfl, rfl⟩

/-- C10: a token that is empty or all white space makes `Authenticate`
and `Logout` fail with the unauthorized error immediately: no repository
call is made and the state is unchanged. -/
theorem empty_token_no_repo_call (env : Env) (st : RepoState)
    (token : List Char) (now : Int) (h : trimSpace token = []) :
    authenticate env st token now = (.error .unauthorizedSession, []) ∧
    logout env st token now = (st, .error .unauthorizedSession, []) := by
  constructor <;> simp [authenticate, logout, h]

/-- Witness for C10 at a concrete all-whitespace token. -/
theorem empty_token_no_repo_call_witness :
    authenticate envC st7 "  ".data 0 = (.error .unauthorizedSession, []) ∧
    logout envC st7 "  ".data 0 = (st7, .error .unauthorizedSession, []) :=
  empty_token_no_repo_call envC st7 "  ".data 0 (by decide)

/-- C9: every failure of `Authenticate` is the single unauthorized error
(token-hash miss, expired and revoked rows are indistinguishable), and a
session is returned exactly when the token is non-blank and some
unrevoked, unexpired session row matches the presented token's hash. -/
theorem authenticate_spec (env : Env) (st : RepoState) (token : List Char)
    (now : Int) :
    (∀ e, (authenticate env st token now).1 = .error e →
      e = .unauthorizedSession) ∧
    ((∃ s, (authenticate env st token now).1 = .ok s) ↔
      (trimSpace token ≠ [] ∧ ∃ row ∈ st.sessions,
        row.tokenHash = env.hashToken token ∧ row.revokedAt = none ∧
        now < row.expiresAt)) := by
  by_cases ht : (trimSpace token).isEmpty
  · rw [List.isEmpty_iff] at ht
    constructor
    · intro e he
      simp [authenticate, ht] at he
      exact he.symm
    · simp [authenticate, ht]
  · have htne : trimSpace token ≠ [] := by
      intro hcon; rw [List.isEmpty_iff] at ht; exact ht hcon
    cases hfind : getActiveSessionByTokenHash st (env.hashToken token) now with
    | none =>
        have hnone := hfind
        rw [getActiveSessionByTokenHash, List.find?_eq_none] at hnone
        constructor
        · intro e he
          simp [authenticate, ht, hfind] at he
          exact he.symm
        · constructor
          · intro ⟨s, hs⟩
            simp [authenticate, ht, hfind] at hs
          · intro ⟨_, row, hmem, hh, hr, he⟩
            have := hnone row hmem
            simp [hh, hr, he] at this
    | some s =>
        constructor
        · intro e he
          simp [authenticate, ht, hfind] at he
        · have hmem := List.mem_of_find?_eq_some hfind
          have hpred := List.find?_some hfind
          simp only [Bool.and_eq_true, beq_iff_eq, Option.isNone_iff_eq_none,
            decide_eq_true_eq] at hpred
          refine ⟨fun _ => ⟨htne, s, hmem, hpred.1.1, hpred.1.2, hpred.2⟩,
            fun _ => ⟨s, ?_⟩⟩
          simp [authenticate, ht, hfind]

/-- Witness for C9 at a concrete state: the stored hash of "tok" matches
an unrevoked session expiring later, so authentication succeeds. -/
theorem authenticate_spec_witness :
    ∃ s, (authenticate envC stW "tok".data 50).1 = .ok s :=
  (authenticate_spec envC stW "tok".data 50).2.mpr
    ⟨by decide, rowW, by simp [stW], by decide, by decide, by decide⟩

/-- Counterexample to C6 as stated: the ambiguous-input rejection happens
before the credential lookup, so even for a stored record with TOTP
disabled and a verifying password, supplying both a TOTP code and a
recovery code yields the invalid-MFA-input error instead of a session. -/
theorem login_both_factors_disabled_cex :
    getUserAuthByEmail st6 (normalizeEmail input6.email) = some rec6 ∧
    rec6.totpEnabled = false ∧
    verifyPassword envC input6.password rec6.salt rec6.passwordHash
      ⟨65536, 3, 2, 32⟩ = true ∧
    login envC st6 input6 1000 = (st6, .error .invalidMFAInput) :=
  ⟨by decide, rfl, by decide, by decide⟩

/-- C6 (amended): when the stored record has TOTP disabled and the
password verifies, `Login` issues a session provided at most one MFA
field is supplied (whichever it is, the field is ignored); supplying both
a TOTP code and a recovery code is rejected as invalid MFA input
regardless of the account's TOTP state — the rejection happens before the
record is even read. -/
theorem login_totp_disabled_spec (env : Env) (st : RepoState)
    (input : LoginInput) (now : Int) (record : UserRec) (params : Argon2Params)
    (hemail : normalizeEmail input.email ≠ [])
    (hpw : input.password ≠ [])
    (hnotboth : ¬(trimSpace input.totpCode ≠ [] ∧ trimSpace input.recoveryCode ≠ []))
    (huser : getUserAuthByEmail st (normalizeEmail input.email) = some record)
    (hparams : parseArgon2Params record.rawParams = .ok params)
    (hverify : verifyPassword env input.password record.salt
      record.passwordHash params = true)
    (hdisabled : record.totpEnabled = false) :
    login env st input now =
      (createSession st
        { sessionID := env.newSessionID
          userID := record.userID
          tokenHash := env.hashToken env.newToken
          deviceName := trimSpace input.deviceName
          ipAddr := env.normalizeIP input.ipAddr
          userAgent := trimSpace input.userAgent
          expiresAt := now + env.sessionTTL
          revokedAt := none },
        .ok { sessionToken := env.newToken, expiresAt := now + env.sessionTTL }) ∧
    (∀ (st2 : RepoState) (input2 : LoginInput) (now2 : Int),
      normalizeEmail input2.email ≠ [] → input2.password ≠ [] →
      trimSpace input2.totpCode ≠ [] → trimSpace input2.recoveryCode ≠ [] →
      login env st2 input2 now2 = (st2, .error .invalidMFAInput)) := by
  constructor
  · have hboth : (!(trimSpace input.totpCode).isEmpty &&
        !(trimSpace input.recoveryCode).isEmpty) = false := by
      rcases not_and_or.mp hnotboth with h | h
      · simp [List.isEmpty_iff, not_not.mp h]
      · simp [List.isEmpty_iff, not_not.mp h]
    simp [login, List.isEmpty_iff, hemail, hpw, hboth, huser, hparams, hverify,
      loginMFA, hdisabled]
  · intro st2 input2 now2 he2 hp2 ht2 hr2
    simp [login, List.isEmpty_iff, he2, hp2, ht2, hr2]

/-- Witness for the amended C6: a TOTP-disabled user logging in with only
a recovery code supplied still gets a session (the field is ignored). -/
theorem login_totp_disabled_spec_witness :
    login envC st6 input6r 1000 =
      (createSession st6
        { sessionID := envC.newSessionID
          userID := rec6.userID
          tokenHash := envC.hashToken envC.newToken
          deviceName := trimSpace input6r.deviceName
          ipAddr := envC.normalizeIP input6r.ipAddr
          userAgent := trimSpace input6r.userAgent
          expiresAt := 1000 + envC.sessionTTL
          revokedAt := none },
        .ok { sessionToken := envC.newToken, expiresAt := 1000 + envC.sessionTTL }) :=
  (login_totp_disabled_spec envC st6 input6r 1000 rec6 ⟨65536, 3, 2, 32⟩
    (by decide) (by decide) (by decide) (by decide) (by decide) (by decide)
    rfl).1

/-- Counterexample to C4 as stated: reusing an already-consumed recovery
code while the account sits at four failed attempts inside the window
yields the rate-limited error, not the invalid-MFA error the claim
promises for every later attempt with the same code. -/
theorem consume_reuse_rate_limited_cex :
    st4.recoveryCodes.map RecRow.usedAt = [some 5] ∧
    (login envC st4 input6r 1010).2 = .error .mfaRateLimited :=
  ⟨by decide, by decide⟩

/-- Mapping a conditional rewrite over a list where the condition never
holds is the identity. -/
theorem map_cond_id {α : Type} (l : List α) (p : α → Bool) (f : α → α)
    (h : ∀ a ∈ l, p a = false) :
    l.map (fun a => if p a then f a else a) = l := by
  induction l with
  | nil => rfl
  | cons x xs ih =>
      have hx := h x (by simp)
      simp only [List.map_cons, hx, Bool.false_eq_true, if_false]
      rw [ih (fun a ha => h a (by simp [ha]))]

/-- Consuming a code with no matching unused row affects nothing: the
conditional update hits zero rows, the table is unchanged, false is
returned. -/
theorem consume_noop (st : RepoState) (uid : List Char) (hashv : List Nat)
    (now : Int)
    (hzero : st.recoveryCodes.countP
      (fun r => r.userID == uid && r.codeHash == hashv && r.usedAt.isNone) = 0) :
    consumeRecoveryCode st uid hashv now = (st, false) := by
  have hnone : ∀ r ∈ st.recoveryCodes,
      (r.userID == uid && r.codeHash == hashv && r.usedAt.isNone) = false := by
    intro r hr
    have := List.countP_eq_zero.mp hzero r hr
    exact (Bool.not_eq_true _) ▸ this
  simp only [consumeRecoveryCode, hzero]
  rw [map_cond_id _ _ _ hnone]
  rfl

/-- C4 (amended): `ConsumeRecoveryCode` performs one conditional update
stamping `used_at` where it is still null.  Under the table's primary-key
invariant (at most one row per user and code hash) it returns true
exactly when one row was affected; after a consume, consuming the same
code again returns false and leaves the table unchanged; and a `Login`
that presents a code with no unused row records an MFA failure and
surfaces the invalid-MFA error — or the rate-limited error when that
failure produces an active lock. -/
theorem consume_at_most_once (st : RepoState) (uid : List Char)
    (hashv : List Nat) (now now2 : Int) :
    (st.recoveryCodes.countP
        (fun r => r.userID == uid && r.codeHash == hashv) ≤ 1 →
      ((consumeRecoveryCode st uid hashv now).2 = true ↔
        st.recoveryCodes.countP
          (fun r => r.userID == uid && r.codeHash == hashv && r.usedAt.isNone)
          = 1)) ∧
    (consumeRecoveryCode (consumeRecoveryCode st uid hashv now).1 uid hashv now2
      = ((consumeRecoveryCode st uid hashv now).1, false)) ∧
    (∀ (env : Env) (input : LoginInput) (record : UserRec)
        (params : Argon2Params) (now3 : Int),
      normalizeEmail input.email ≠ [] → input.password ≠ [] →
      trimSpace input.totpCode = [] → trimSpace input.recoveryCode ≠ [] →
      getUserAuthByEmail st (normalizeEmail input.email) = some record →
      st.users.find? (fun u => u.userID == record.userID) = some record →
      parseArgon2Params record.rawParams = .ok params →
      verifyPassword env input.password record.salt record.passwordHash params
        = true →
      record.totpEnabled = true →
      isMFALocked record.lockedUntil now3 = false →
      st.recoveryCodes.countP (fun r => r.userID == record.userID &&
        r.codeHash == env.hashRecoveryCode (trimSpace input.recoveryCode) &&
        r.usedAt.isNone) = 0 →
      ((recordTOTPFailure
          ⟨record.failedAttempts, record.windowStart, record.lockedUntil⟩
          now3 5 30 300).2 = none →
        (login env st input now3).2 = .error .invalidMFA) ∧
      (∀ t, (recordTOTPFailure
          ⟨record.failedAttempts, record.windowStart, record.lockedUntil⟩
          now3 5 30 300).2 = some t → now3 < t →
        (login env st input now3).2 = .error .mfaRateLimited)) := by
  refine ⟨?_, ?_, ?_⟩
  · intro hpk
    have hmono : st.recoveryCodes.countP
        (fun r => r.userID == uid && r.codeHash == hashv && r.usedAt.isNone) ≤
        st.recoveryCodes.countP
          (fun r => r.userID == uid && r.codeHash == hashv) := by
      apply List.countP_mono_left
      intro r _ h
      simp only [Bool.and_eq_true] at h ⊢
      exact h.1
    simp only [consumeRecoveryCode, decide_eq_true_eq]
    omega
  · have hpost : ∀ r ∈ (consumeRecoveryCode st uid hashv now).1.recoveryCodes,
        (r.userID == uid && r.codeHash == hashv && r.usedAt.isNone) = false := by
      intro r hr
      simp only [consumeRecoveryCode, List.mem_map] at hr
      obtain ⟨r0, hr0, rfl⟩ := hr
      by_cases h : (r0.userID == uid && r0.codeHash == hashv &&
          r0.usedAt.isNone) = true
      · simp [h]
      · rw [if_neg h]
        exact (Bool.not_eq_true _) ▸ h
    apply consume_noop
    rw [List.countP_eq_zero]
    intro r hr
    simp [hpost r hr]
  · intro env input record params now3 hemail hpw htotp hrec huser hfind hparams
      hverify henabled hnotlocked hconsumed
    have hboth : (!(trimSpace input.totpCode).isEmpty &&
        !(trimSpace input.recoveryCode).isEmpty) = false := by
      simp [htotp]
    have hconsume : consumeRecoveryCode st record.userID
        (env.hashRecoveryCode (trimSpace input.recoveryCode)) now3 = (st, false) :=
      consume_noop _ _ _ _ hconsumed
    have hsvc : (recordMFAFailureSvc st record.userID now3).2 =
        (if isMFALocked (recordTOTPFailure
            ⟨record.failedAttempts, record.windowStart, record.lockedUntil⟩
            now3 5 30 300).2 now3
          then AuthError.mfaRateLimited else AuthError.invalidMFA) := by
      simp [recordMFAFailureSvc, recordTOTPFailureRepo, hfind]
    have hlogin : (login env st input now3).2 =
        .error ((recordMFAFailureSvc st record.userID now3).2) := by
      simp [login, List.isEmpty_iff, hemail, hpw, hboth, huser, hparams,
        hverify, loginMFA, henabled, hnotlocked, htotp, hrec, hconsume]
    constructor
    · intro hls
      rw [hlogin, hsvc, hls]
      simp [isMFALocked]
    · intro t hls hlt
      rw [hlogin, hsvc, hls]
      simp [isMFALocked, hlt]

/-- Witness for the amended C4: a single unused row is consumed (true),
and the consume of the concrete state is reported as exactly one row. -/
theorem consume_at_most_once_witness :
    (consumeRecoveryCode stRC "u1".data ("RC".data.map Char.toNat) 10).2 = true :=
  ((consume_at_most_once stRC "u1".data ("RC".data.map Char.toNat) 10 20).1
    (by decide)).mpr (by decide)
/-- C8: each of the four base64 fields of a payload reaching the decoding
stage is validated (alphabet, padding, length a multiple of 4, via
`isValidBase64`) before decoding, and a malformed field fails
`decryptVaultItem` with the `invalidEncoding` error ("invalid base64
input"), which is distinct from the `authenticationFailed` error of AEAD
open failures; the AEAD is never consulted.  Fields are processed in
source order (wrap nonce, wrapped DEK, content nonce, ciphertext), so each
conjunct assumes the earlier fields decoded successfully. -/
theorem decrypt_base64_validation (A : Aead) (p : EncryptedVaultItem)
    (kek : List Nat) (aad : Option (List Nat))
    (hv : p.version = vaultVersion) (hk : kek.length = A.keyLength)
    (hn : p.nonce ≠ []) (hw : p.wrapNonce ≠ [])
    (hc : p.ciphertext ≠ []) (hd : p.wrappedDek ≠ []) :
    (VaultError.invalidEncoding ≠ VaultError.authenticationFailed) ∧
    (isValidBase64 p.wrapNonce = false →
      decryptVaultItem A p kek aad = .error .invalidEncoding) ∧
    (isValidBase64 p.wrapNonce = true →
      (decodeB64Groups p.wrapNonce).length = A.nonceLength →
      isValidBase64 p.wrappedDek = false →
      decryptVaultItem A p kek aad = .error .invalidEncoding) ∧
    (isValidBase64 p.wrapNonce = true →
      (decodeB64Groups p.wrapNonce).length = A.nonceLength →
      isValidBase64 p.wrappedDek = true →
      isValidBase64 p.nonce = false →
      decryptVaultItem A p kek aad = .error .invalidEncoding) ∧
    (isValidBase64 p.wrapNonce = true →
      (decodeB64Groups p.wrapNonce).length = A.nonceLength →
      isValidBase64 p.wrappedDek = true →
      isValidBase64 p.nonce = true →
      (decodeB64Groups p.nonce).length = A.nonceLength →
      isValidBase64 p.ciphertext = false →
      decryptVaultItem A p kek aad = .error .invalidEncoding) := by
  refine ⟨by decide, ?_, ?_, ?_, ?_⟩
  · intro h1
    simp [decryptVaultItem, hv, hk, List.isEmpty_iff, hn, hw, hc, hd,
      decodeBase64Field, fromBase64, h1, bind, Except.bind]
  · intro h1 hl1 h2
    simp [decryptVaultItem, hv, hk, List.isEmpty_iff, hn, hw, hc, hd,
      decodeBase64Field, fromBase64, h1, hl1, h2, bind, Except.bind]
  · intro h1 hl1 h2 h3
    simp [decryptVaultItem, hv, hk, List.isEmpty_iff, hn, hw, hc, hd,
      decodeBase64Field, fromBase64, h1, hl1, h2, h3, bind, Except.bind]
  · intro h1 hl1 h2 h3 hl3 h4
    simp [decryptVaultItem, hv, hk, List.isEmpty_iff, hn, hw, hc, hd,
      decodeBase64Field, fromBase64, h1, hl1, h2, h3, hl3, h4, bind, Except.bind]

/-- Witness for C8 at a concrete payload: a wrap-nonce field of four
percent signs (outside the base64 alphabet) yields the encoding error. -/
theorem decrypt_base64_validation_witness :
    decryptVaultItem toyAead
      { toyPayload with wrapNonce := ['%', '%', '%', '%'] } toyKek none
      = .error .invalidEncoding :=
  ((decrypt_base64_validation toyAead
    { toyPayload with wrapNonce := ['%', '%', '%', '%'] } toyKek none
    rfl (by decide) (by decide) (by decide) (by decide) (by decide)).2.1)
    (by decide)
end PM
